import Mathlib

/-!
Shallow embedding of the friend-suggestion ranker and the friend-request
operations of the feelsocial REST API (src/controllers/userController.ts,
src/models/User.ts, src/models/Post.ts, src/routes/userRoutes.ts), together
with proofs about the properties stated in the specification.

Modelling conventions:
* Mongo ObjectIds are `Nat`.
* A collection is a `List` of documents in natural (insertion) order; an
  aggregation stage transforms that list, preserving document order, which
  models Mongo's deterministic per-stage streaming behaviour.  `$group` is
  modelled as emitting one entry per distinct key in first-occurrence order,
  and `$sort` as a stable sort (order among equal keys is unspecified in
  Mongo; the stable model is the deterministic refinement used throughout).
* `$match` on an array field with `$ne: v` means the array does not contain
  `v`; `$in` / `$nin` are element tests, matching Mongo semantics for the
  queries used in the controller.
* JavaScript `Math.max(a - b, 0)` on numbers is `Nat` truncated subtraction.
-/

abbrev UserId := Nat
abbrev PostId := Nat

/-- A document of the `users` collection (src/models/User.ts): username,
email, password hash, `friends` and `friendRequests` arrays of user ids,
and the `createdAt` timestamp added by mongoose. -/
structure User where
  id : UserId
  username : String
  email : String
  password : String
  friends : List UserId
  friendRequests : List UserId
  createdAt : Nat
deriving Repr, DecidableEq

/-- A document of the `posts` collection (src/models/Post.ts): author and
the `likes` array of user ids. -/
structure Post where
  id : PostId
  author : UserId
  likes : List UserId
deriving Repr, DecidableEq

/-- A document of the `comments` collection (src/models/Comment.ts):
author and the post it belongs to. -/
structure Comment where
  id : Nat
  author : UserId
  post : PostId
deriving Repr, DecidableEq

/-- The persistent store the controller reads: the three collections in
natural order. -/
structure Store where
  users : List User
  posts : List Post
  comments : List Comment
deriving Repr, DecidableEq

/-- `User.findById`: first document whose `_id` matches. -/
def findUser (users : List User) (i : UserId) : Option User :=
  users.find? (fun u => u.id == i)

/-! ## The suggestion aggregation (getSuggestUsers, userController.ts lines 16-159) -/

/-- The exclusion filter shared by all three `$facet` branches:
`_id: \x7b $ne: currentUserId, $nin: friends \x7d` and
`friendRequests: \x7b $ne: currentUserId \x7d`. -/
def eligible (currentUserId : UserId) (friends : List UserId) (u : User) : Bool :=
  !(u.id == currentUserId) && !(friends.contains u.id) && !(u.friendRequests.contains currentUserId)

/-- `mutualFriends` facet: users whose `friends` array meets the requester's
`friends` array (`friends: \x7b $in: friends \x7d`), with the exclusion filter. -/
def mutualFriendsGroup (users : List User) (currentUserId : UserId) (friends : List UserId) : List User :=
  users.filter (fun u => u.friends.any (fun x => friends.contains x) && eligible currentUserId friends u)

/-- `likedPosts` facet: `$lookup` joins the posts authored by the candidate
(localField `_id`, foreignField `author`) as `postsLikedByCurrentUser`, then
`$match` keeps candidates where some joined post has `likes` containing
`currentUserId`, with the exclusion filter. -/
def likedPostsGroup (st : Store) (currentUserId : UserId) (friends : List UserId) : List User :=
  st.users.filter (fun u =>
    st.posts.any (fun p => p.author == u.id && p.likes.contains currentUserId)
      && eligible currentUserId friends u)

/-- `commentedPosts` facet: `$lookup` joins the comments authored by the
candidate (localField `_id`, foreignField `author`) as `commentsByCurrentUser`,
then `$match` keeps candidates where some joined comment has
`author = currentUserId`, with the exclusion filter. -/
def commentedPostsGroup (st : Store) (currentUserId : UserId) (friends : List UserId) : List User :=
  st.users.filter (fun u =>
    st.comments.any (fun c => c.author == u.id && c.author == currentUserId)
      && eligible currentUserId friends u)

/-- An accumulated candidate after the `$group` stage: the first document
seen for this id (`user: \x7b $first: ... \x7d`) and the summed score. -/
structure Scored where
  user : User
  score : Nat
deriving Repr, DecidableEq

/-- One streaming step of the `$group` stage: an already-seen id has its
score summed (`score: \x7b $sum: ... \x7d`), a new id is appended. -/
def insertScored (acc : List Scored) (p : User × Nat) : List Scored :=
  if acc.any (fun e => e.user.id == p.1.id) then
    acc.map (fun e => if e.user.id == p.1.id then { e with score := e.score + p.2 } else e)
  else
    acc ++ [⟨p.1, p.2⟩]

/-- The `$group \x7b _id: suggestedUsers._id ... \x7d` stage over the
concatenated facet results. -/
def groupById (pairs : List (User × Nat)) : List Scored :=
  pairs.foldl insertScored []

/-- The nested `user` object after `$project` removed `user.friends` and
`user.friendRequests`.  Note `user.password` is not projected away. -/
structure ProjUser where
  id : UserId
  username : String
  email : String
  password : String
  createdAt : Nat
deriving Repr, DecidableEq

/-- An output document of the scored aggregation:
`\x7b _id, user, score, friendsCount \x7d` where `friendsCount` was added
from `$size` of `user.friends` before the projection dropped the array. -/
structure ScoredEntry where
  id : UserId
  user : ProjUser
  score : Nat
  friendsCount : Nat
deriving Repr, DecidableEq

/-- Build the post-`$group` output document for one accumulated candidate. -/
def toScoredEntry (e : Scored) : ScoredEntry :=
  { id := e.user.id
    user :=
      { id := e.user.id
        username := e.user.username
        email := e.user.email
        password := e.user.password
        createdAt := e.user.createdAt }
    score := e.score
    friendsCount := e.user.friends.length }

/-- Insert into a list sorted descending by `key`, before the first element
with a key not larger: the stable refinement of Mongo `$sort`. -/
def insertDescBy (key : α → Nat) (x : α) : List α → List α
  | [] => [x]
  | y :: ys => if key y ≤ key x then x :: y :: ys else y :: insertDescBy key x ys

/-- Stable sort, descending by `key`. -/
def sortDescBy (key : α → Nat) : List α → List α
  | [] => []
  | x :: xs => insertDescBy key x (sortDescBy key xs)

/-- An output document of the fallback aggregation: `friendsCount` added,
`friends`, `friendRequests` and `password` projected away. -/
structure FallbackEntry where
  id : UserId
  username : String
  email : String
  createdAt : Nat
  friendsCount : Nat
deriving Repr, DecidableEq

/-- Projection of a user document used by the fallback pipeline. -/
def toFallbackEntry (u : User) : FallbackEntry :=
  { id := u.id
    username := u.username
    email := u.email
    createdAt := u.createdAt
    friendsCount := u.friends.length }

/-- The fallback (`randomUsers`) pipeline before `$skip`/`$limit`
(userController.ts lines 118-139): match `_id ≠ currentUserId` and
`friendRequests` not containing `currentUserId` (friends of the requester are
NOT excluded), add `friendsCount`, project, sort by `friendsCount`
descending. -/
def fallbackPool (st : Store) (currentUserId : UserId) : List FallbackEntry :=
  sortDescBy (fun f => f.friendsCount)
    ((st.users.filter (fun u =>
        !(u.id == currentUserId) && !(u.friendRequests.contains currentUserId))).map toFallbackEntry)

/-- One element of the response body array.  In the branch without fallback
the raw aggregation documents are returned (`scoredFull`); in the fallback
branch each scored document is mapped to its nested `user`
(`scoredUser`), followed by the fallback documents (`fallback`). -/
inductive RespEntry where
  | scoredFull (e : ScoredEntry)
  | scoredUser (u : ProjUser)
  | fallback (f : FallbackEntry)
deriving Repr, DecidableEq

/-- The user id carried by a response entry. -/
def RespEntry.uid : RespEntry → UserId
  | .scoredFull e => e.id
  | .scoredUser u => u.id
  | .fallback f => f.id

/-- The password value a response entry exposes, when its document shape
still carries the `password` field. -/
def RespEntry.passwordField : RespEntry → Option String
  | .scoredFull e => some e.user.password
  | .scoredUser u => some u.password
  | .fallback _ => none

/-- Whether a response entry carries a `friendsCount` field. -/
def RespEntry.hasFriendsCount : RespEntry → Bool
  | .scoredFull _ => true
  | .scoredUser _ => false
  | .fallback _ => true

/-- The body sent by `res.sendResponse(status, message, isError, data)`. -/
structure SuggestResponse where
  status : Nat
  message : String
  isError : Bool
  entries : List RespEntry
deriving Repr, DecidableEq

/-- The `$concatArrays` of the three facet results, each user paired with
the `$literal` score its facet added. -/
def scoredPairs (st : Store) (currentUserId : UserId) (friends : List UserId) : List (User × Nat) :=
  (mutualFriendsGroup st.users currentUserId friends).map (fun u => (u, 10))
    ++ (likedPostsGroup st currentUserId friends).map (fun u => (u, 5))
    ++ (commentedPostsGroup st currentUserId friends).map (fun u => (u, 3))

/-- The deduplicated candidates after `$unwind` and `$group`. -/
def groupedCandidates (st : Store) (currentUserId : UserId) (friends : List UserId) : List Scored :=
  groupById (scoredPairs st currentUserId friends)

/-- The scored aggregation of `getSuggestUsers`: facets, `$concatArrays`,
`$unwind`, `$group`, `$addFields friendsCount`, `$project`, `$sort` by score
descending, `$skip limit * (page - 1)`, `$limit limit`. -/
def scoredPage (st : Store) (currentUserId : UserId) (friends : List UserId) (limit page : Nat) : List ScoredEntry :=
  let sorted := sortDescBy (fun e => e.score)
    ((groupedCandidates st currentUserId friends).map toScoredEntry)
  (sorted.drop (limit * (page - 1))).take limit

/-- `getSuggestUsers` (userController.ts lines 16-159).  The requester
lookup uses a non-null assertion: a missing requester throws and is caught
by the generic handler, producing the 500 response.  Otherwise the scored
page is computed; if it is short of `limit`, the remainder is backfilled
from the fallback pool with
`$skip: Math.max(fetchedUsersCount - suggestedUsers.length, 0)` and
`$limit: remaining`. -/
def getSuggestUsers (st : Store) (currentUserId : UserId) (limit page : Nat) : SuggestResponse :=
  match findUser st.users currentUserId with
  | none => { status := 500, message := "Internal server error", isError := true, entries := [] }
  | some me =>
    let friends := me.friends
    let suggestedUsers := scoredPage st currentUserId friends limit page
    let fetchedUsersCount := (page - 1) * limit
    let remaining := limit - suggestedUsers.length
    if suggestedUsers.length < limit then
      let randomUsers :=
        ((fallbackPool st currentUserId).drop (fetchedUsersCount - suggestedUsers.length)).take remaining
      { status := 200, message := "Suggested users", isError := false
        entries := suggestedUsers.map (fun e => RespEntry.scoredUser e.user)
          ++ randomUsers.map RespEntry.fallback }
    else
      { status := 200, message := "Suggested users", isError := false
        entries := suggestedUsers.map RespEntry.scoredFull }

/-- The `limit` validation of `validateGetRequests`
(userRoutes.ts lines 27-49): `isInt(\x7b min: 1 \x7d)` — a lower bound only,
no maximum. -/
def validLimit (n : Int) : Bool :=
  1 ≤ n

/-- The `page` validation of `validateGetRequests`: `isInt(\x7b min: 1 \x7d)`. -/
def validPage (n : Int) : Bool :=
  1 ≤ n

/-! ## Friend-request operations (userController.ts lines 167-301, 538-561) -/

/-- Mongo `$addToSet` on an array field: append unless already present. -/
def addToSet (l : List UserId) (x : UserId) : List UserId :=
  if l.contains x then l else l ++ [x]

/-- Mongo `$pull` on an array field: remove every occurrence. -/
def pull (l : List UserId) (x : UserId) : List UserId :=
  l.filter (fun y => !(y == x))

/-- `User.updateOne(\x7b _id: i \x7d, ...)`: apply the update to the
document(s) with that id. -/
def updateUser (users : List User) (i : UserId) (f : User → User) : List User :=
  users.map (fun u => if u.id == i then f u else u)

/-- The outcome of a friend-relation operation: the users collection after
the call and the HTTP status of the response. -/
structure OpResult where
  users : List User
  status : Nat
  isError : Bool
deriving Repr, DecidableEq

/-- `sendRequest` (lines 167-197): refuse with 403 when the target already
has the caller in `friendRequests` or `friends`, or the target does not
exist; otherwise `$addToSet` the caller into the target's
`friendRequests`. -/
def sendRequest (users : List User) (currentUserId targetId : UserId) : OpResult :=
  let conflicting := users.find? (fun u =>
    u.id == targetId && (u.friendRequests.contains currentUserId || u.friends.contains currentUserId))
  if conflicting.isSome || (findUser users targetId).isNone then
    { users := users, status := 403, isError := true }
  else
    { users := updateUser users targetId
        (fun u => { u with friendRequests := addToSet u.friendRequests currentUserId })
      status := 200, isError := false }

/-- `acceptRequest` (lines 271-301): refuse with 400 unless the caller has
the sender in `friendRequests`; otherwise add each to the other's `friends`
and `$pull` the pending entries on both sides, one `updateOne` per side. -/
def acceptRequest (users : List User) (currentUserId targetId : UserId) : OpResult :=
  if (users.find? (fun u => u.id == currentUserId && u.friendRequests.contains targetId)).isSome then
    let s1 := updateUser users currentUserId (fun u =>
      { u with friends := addToSet u.friends targetId
               friendRequests := pull u.friendRequests targetId })
    let s2 := updateUser s1 targetId (fun u =>
      { u with friends := addToSet u.friends currentUserId
               friendRequests := pull u.friendRequests currentUserId })
    { users := s2, status := 200, isError := false }
  else
    { users := users, status := 400, isError := true }

/-- `removeFriend` (lines 205-229): refuse with 400 unless the target has
the caller in `friends`; otherwise `$pull` each from the other's `friends`,
one `updateOne` per side. -/
def removeFriend (users : List User) (currentUserId targetId : UserId) : OpResult :=
  if (users.find? (fun u => u.id == targetId && u.friends.contains currentUserId)).isSome then
    let s1 := updateUser users currentUserId (fun u => { u with friends := pull u.friends targetId })
    let s2 := updateUser s1 targetId (fun u => { u with friends := pull u.friends currentUserId })
    { users := s2, status := 200, isError := false }
  else
    { users := users, status := 400, isError := true }

/-- `removeFriendRequest` (cancel, lines 237-259): refuse with 400 unless
the target has the caller in `friendRequests`; otherwise `$pull` the caller
from the target's `friendRequests`. -/
def removeFriendRequest (users : List User) (currentUserId targetId : UserId) : OpResult :=
  if (users.find? (fun u => u.id == targetId && u.friendRequests.contains currentUserId)).isSome then
    { users := updateUser users targetId
        (fun u => { u with friendRequests := pull u.friendRequests currentUserId })
      status := 200, isError := false }
  else
    { users := users, status := 400, isError := true }

/-- `rejectFriendRequest` (lines 538-561): refuse with 400 unless the caller
has the sender in `friendRequests`; otherwise `$pull` the sender from the
caller's `friendRequests`. -/
def rejectFriendRequest (users : List User) (currentUserId targetId : UserId) : OpResult :=
  if (users.find? (fun u => u.id == currentUserId && u.friendRequests.contains targetId)).isSome then
    { users := updateUser users currentUserId
        (fun u => { u with friendRequests := pull u.friendRequests targetId })
      status := 200, isError := false }
  else
    { users := users, status := 400, isError := true }

/-- Symmetry of the friends relation over the documents of the collection. -/
def FriendsSymm (users : List User) : Prop :=
  ∀ u ∈ users, ∀ v ∈ users, v.id ∈ u.friends → u.id ∈ v.friends

/-- Concatenation of the response bodies of suggestion pages `1..k`. -/
def suggestPages (st : Store) (currentUserId limit k : Nat) : List RespEntry :=
  ((List.range k).map (fun i => (getSuggestUsers st currentUserId limit (i + 1)).entries)).flatten

/-- Whether a response entry came from the scored aggregation rather than
the fallback pool. -/
def RespEntry.isScored : RespEntry → Bool
  | .fallback _ => false
  | _ => true

/-! ## Concrete stores used as test inputs -/

/-- Shorthand for a user document with fixed profile strings. -/
def mkU (i : Nat) (fr frq : List Nat) : User :=
  { id := i, username := "u", email := "e", password := "p",
    friends := fr, friendRequests := frq, createdAt := i }

/-- Requester 0 is friends with user 1 and nothing else exists: every
scored group is empty and the fallback pool backfills user 1. -/
def exC1 : Store :=
  { users := [mkU 0 [1] [], mkU 1 [0] []], posts := [], comments := [] }

/-- Requester 0 and candidate 1 share friend 2, so user 1 is a scored
mutual-friend candidate; user 1 has a recognisable stored password. -/
def exC2 : Store :=
  { users := [mkU 0 [2] [],
      { id := 1, username := "u", email := "e", password := "hunter2",
        friends := [2], friendRequests := [], createdAt := 1 },
      mkU 2 [0, 1] []],
    posts := [], comments := [] }

/-- User 1 liked the post authored by requester 0; the requester liked
nothing. -/
def exC3 : Store :=
  { users := [mkU 0 [] [], mkU 1 [] []],
    posts := [{ id := 0, author := 0, likes := [1] }], comments := [] }

/-- Requester 0 commented on the post authored by user 1. -/
def exC4 : Store :=
  { users := [mkU 0 [] [], mkU 1 [] []],
    posts := [{ id := 0, author := 1, likes := [] }],
    comments := [{ id := 0, author := 0, post := 0 }] }

/-- User 1 is the only scored candidate and also tops the fallback pool by
friend count. -/
def exC5 : Store :=
  { users := [mkU 0 [2] [], mkU 1 [2, 3, 4] [], mkU 2 [0, 1] [], mkU 3 [1] [], mkU 4 [1] []],
    posts := [], comments := [] }

/-- User 1 is the only scored candidate; users 2..6 populate the fallback
pool (user 2, a friend of the requester, has the highest friend count). -/
def exC6 : Store :=
  { users := [mkU 0 [2] [], mkU 1 [2] [], mkU 2 [0, 1] [],
      mkU 3 [4] [], mkU 4 [3] [], mkU 5 [6] [], mkU 6 [5] []],
    posts := [], comments := [] }

/-- Requester 0 plus 21 unrelated users: no scored candidates, 21 fallback
candidates. -/
def exC7 : Store :=
  { users := (List.range 22).map (fun i => mkU i [] []), posts := [], comments := [] }

/-- Requester 0 and two unrelated users, no posts or comments: every scored
group is empty. -/
def exC6W : Store :=
  { users := [mkU 0 [] [], mkU 1 [] [], mkU 2 [] []], posts := [], comments := [] }

/-- Requester 0 and candidate 1 share friend 2 and the requester liked the
post authored by candidate 1, so candidate 1 scores in two facets. -/
def exC5W : Store :=
  { users := [mkU 0 [2] [], mkU 1 [2] [], mkU 2 [0, 1] []],
    posts := [{ id := 0, author := 1, likes := [0] }], comments := [] }

/-- User 2 has a pending friend request from user 1. -/
def exC8U : List User :=
  [mkU 1 [] [], mkU 2 [] [1]]

/-- User 2 already has user 1 in `friends`. -/
def exC9A : List User :=
  [mkU 1 [2] [], mkU 2 [1] []]

/-- Two users with no relation at all. -/
def exC9B : List User :=
  [mkU 1 [] [], mkU 2 [] []]

/-! ## Helper lemmas -/

theorem mem_insertDescBy (key : α → Nat) (x : α) (l : List α) (y : α) :
    y ∈ insertDescBy key x l ↔ y = x ∨ y ∈ l := by
  induction l with
  | nil => simp [insertDescBy]
  | cons z zs ih =>
    by_cases h : key z ≤ key x
    · simp [insertDescBy, h]
    · simp [insertDescBy, h, ih]
      tauto

theorem mem_sortDescBy (key : α → Nat) (l : List α) (y : α) :
    y ∈ sortDescBy key l ↔ y ∈ l := by
  induction l with
  | nil => simp [sortDescBy]
  | cons z zs ih => simp [sortDescBy, mem_insertDescBy, ih]

theorem mem_addToSet (l : List UserId) (x y : UserId) :
    y ∈ addToSet l x ↔ y ∈ l ∨ y = x := by
  by_cases h : l.contains x
  · simp only [addToSet, h, if_pos]
    constructor
    · exact Or.inl
    · rintro (hy | rfl)
      · exact hy
      · exact List.elem_iff.mp h
  · rw [addToSet, if_neg h]
    simp

theorem mem_pull (l : List UserId) (x y : UserId) :
    y ∈ pull l x ↔ y ∈ l ∧ y ≠ x := by
  simp [pull, List.mem_filter]

theorem eligible_iff (currentUserId : UserId) (friends : List UserId) (u : User) :
    eligible currentUserId friends u = true ↔
      u.id ≠ currentUserId ∧ u.id ∉ friends ∧ currentUserId ∉ u.friendRequests := by
  simp [eligible, List.elem_iff, and_assoc]

theorem mem_mutualFriendsGroup (users : List User) (currentUserId : UserId)
    (friends : List UserId) (u : User) :
    u ∈ mutualFriendsGroup users currentUserId friends ↔
      u ∈ users ∧ (∃ x ∈ u.friends, x ∈ friends) ∧
        u.id ≠ currentUserId ∧ u.id ∉ friends ∧ currentUserId ∉ u.friendRequests := by
  simp [mutualFriendsGroup, List.mem_filter, List.any_eq_true, eligible_iff, List.elem_iff,
    and_assoc]

theorem mem_likedPostsGroup (st : Store) (currentUserId : UserId)
    (friends : List UserId) (u : User) :
    u ∈ likedPostsGroup st currentUserId friends ↔
      u ∈ st.users ∧ (∃ p ∈ st.posts, p.author = u.id ∧ currentUserId ∈ p.likes) ∧
        u.id ≠ currentUserId ∧ u.id ∉ friends ∧ currentUserId ∉ u.friendRequests := by
  simp [likedPostsGroup, List.mem_filter, List.any_eq_true, eligible_iff, List.elem_iff,
    and_assoc]

theorem mem_commentedPostsGroup (st : Store) (currentUserId : UserId)
    (friends : List UserId) (u : User) :
    u ∈ commentedPostsGroup st currentUserId friends ↔
      u ∈ st.users ∧ (∃ c ∈ st.comments, c.author = u.id ∧ c.author = currentUserId) ∧
        u.id ≠ currentUserId ∧ u.id ∉ friends ∧ currentUserId ∉ u.friendRequests := by
  simp [commentedPostsGroup, List.mem_filter, List.any_eq_true, eligible_iff, List.elem_iff,
    and_assoc]

/-- The comment facet demands a comment whose author equals both the
candidate id and the requester id, while the exclusion filter demands the
candidate id differ from the requester id, so the facet matches no user. -/
theorem commentedPostsGroup_nil (st : Store) (currentUserId : UserId) (friends : List UserId) :
    commentedPostsGroup st currentUserId friends = [] := by
  rw [List.eq_nil_iff_forall_not_mem]
  intro u hu
  rcases (mem_commentedPostsGroup st currentUserId friends u).mp hu with
    ⟨_, ⟨c, _, hcu, hcr⟩, hne, _⟩
  exact hne (hcu ▸ hcr)

theorem insertDescBy_perm (key : α → Nat) (x : α) (l : List α) :
    List.Perm (insertDescBy key x l) (x :: l) := by
  induction l with
  | nil => rfl
  | cons y ys ih =>
    by_cases h : key y ≤ key x
    · simp [insertDescBy, h]
    · rw [insertDescBy, if_neg h]
      exact (ih.cons y).trans (List.Perm.swap x y ys)

theorem sortDescBy_perm (key : α → Nat) (l : List α) :
    List.Perm (sortDescBy key l) l := by
  induction l with
  | nil => rfl
  | cons x xs ih => exact (insertDescBy_perm key x (sortDescBy key xs)).trans (ih.cons x)

/-- The candidate ids carried by intermediate `$group` output. -/
def scoredIds (l : List Scored) : List UserId :=
  l.map (fun e => e.user.id)

theorem mem_insertScored_user (acc : List Scored) (p : User × Nat) (e : Scored)
    (he : e ∈ insertScored acc p) : (∃ a ∈ acc, e.user = a.user) ∨ e.user = p.1 := by
  unfold insertScored at he
  by_cases h : acc.any (fun a => a.user.id == p.1.id)
  · rw [if_pos h] at he
    rcases List.mem_map.mp he with ⟨a, ha, rfl⟩
    by_cases h2 : a.user.id == p.1.id <;> simp [h2] <;> exact Or.inl ⟨a, ha, rfl⟩
  · rw [if_neg h] at he
    rcases List.mem_append.mp he with h1 | h1
    · exact Or.inl ⟨e, h1, rfl⟩
    · simp only [List.mem_singleton] at h1
      subst h1
      exact Or.inr rfl

theorem mem_groupById_user (pairs : List (User × Nat)) (e : Scored)
    (he : e ∈ groupById pairs) : ∃ p ∈ pairs, e.user = p.1 := by
  suffices h : ∀ (l : List (User × Nat)) (acc : List Scored) (e : Scored),
      e ∈ l.foldl insertScored acc → (∃ a ∈ acc, e.user = a.user) ∨ ∃ p ∈ l, e.user = p.1 by
    rcases h pairs [] e he with ⟨a, ha, _⟩ | hp
    · exact absurd ha (List.not_mem_nil a)
    · exact hp
  intro l
  induction l with
  | nil => exact fun acc e he => Or.inl ⟨e, he, rfl⟩
  | cons p l ih =>
    intro acc e he
    rcases ih (insertScored acc p) e he with ⟨a, ha, hae⟩ | ⟨q, hq, hqe⟩
    · rcases mem_insertScored_user acc p a ha with ⟨a2, ha2, ha2e⟩ | hap
      · exact Or.inl ⟨a2, ha2, hae.trans ha2e⟩
      · exact Or.inr ⟨p, List.mem_cons_self p l, hae.trans hap⟩
    · exact Or.inr ⟨q, List.mem_cons_of_mem p hq, hqe⟩

theorem scoredIds_insertScored (acc : List Scored) (p : User × Nat)
    (h : (scoredIds acc).Nodup) : (scoredIds (insertScored acc p)).Nodup := by
  unfold insertScored
  by_cases hany : acc.any (fun a => a.user.id == p.1.id)
  · rw [if_pos hany]
    have : scoredIds (acc.map (fun e =>
        if e.user.id == p.1.id then { e with score := e.score + p.2 } else e)) = scoredIds acc := by
      simp only [scoredIds, List.map_map]
      refine List.map_congr_left (fun a _ => ?_)
      by_cases h2 : a.user.id = p.1.id <;> simp [h2]
    rwa [this]
  · rw [if_neg hany]
    have hnot : p.1.id ∉ scoredIds acc := by
      intro hmem
      rcases List.mem_map.mp hmem with ⟨a, ha, hae⟩
      exact hany (List.any_eq_true.mpr ⟨a, ha, by simp [hae]⟩)
    simpa [scoredIds, List.nodup_append] using ⟨h, fun a ha hae => hnot (hae ▸ List.mem_map_of_mem _ ha)⟩

theorem scoredIds_groupById_nodup (pairs : List (User × Nat)) :
    (scoredIds (groupById pairs)).Nodup := by
  suffices h : ∀ (l : List (User × Nat)) (acc : List Scored),
      (scoredIds acc).Nodup → (scoredIds (l.foldl insertScored acc)).Nodup from
    h pairs [] (by simp [scoredIds])
  intro l
  induction l with
  | nil => exact fun acc h => h
  | cons p l ih => exact fun acc h => ih (insertScored acc p) (scoredIds_insertScored acc p h)

/-- The score the `$group` output associates with a candidate id, when
present. -/
def lookupScore (l : List Scored) (i : UserId) : Option Nat :=
  (l.find? (fun e => e.user.id == i)).map Scored.score

/-- The total weight a candidate id receives from the concatenated facet
results. -/
def sumScores (pairs : List (User × Nat)) (i : UserId) : Nat :=
  ((pairs.filter (fun p => p.1.id == i)).map Prod.snd).sum

theorem lookupScore_insertScored (acc : List Scored) (p : User × Nat) (i : UserId) :
    lookupScore (insertScored acc p) i =
      if p.1.id = i then some ((lookupScore acc i).getD 0 + p.2) else lookupScore acc i := by
  unfold insertScored lookupScore
  by_cases hany : acc.any (fun a => a.user.id == p.1.id)
  · rw [if_pos hany, List.find?_map]
    have hcomp : ((fun e : Scored => e.user.id == i) ∘ fun e : Scored =>
        if e.user.id == p.1.id then { e with score := e.score + p.2 } else e)
          = fun e : Scored => e.user.id == i := by
      funext e
      by_cases h2 : e.user.id = p.1.id <;> simp [h2]
    rw [hcomp]
    rcases hfind : acc.find? (fun e => e.user.id == i) with _ | e
    · have hne : ¬ p.1.id = i := by
        intro hpi
        rcases List.any_eq_true.mp hany with ⟨a, ha, hai⟩
        rw [List.find?_eq_none] at hfind
        exact hfind a ha (by rw [hpi] at hai; exact hai)
      simp [hne, hfind]
    · have hei : e.user.id = i := by simpa using List.find?_some hfind
      by_cases hpi : p.1.id = i
      · have he2 : e.user.id = p.1.id := hei.trans hpi.symm
        simp [hfind, hpi, he2]
      · have he2 : ¬ e.user.id = p.1.id := fun h => hpi (h.symm.trans hei)
        simp [hfind, hpi, he2]
  · rw [if_neg hany, List.find?_append]
    have hnone : acc.find? (fun e => e.user.id == p.1.id) = none := by
      rw [List.find?_eq_none]
      intro a ha hai
      exact hany (List.any_eq_true.mpr ⟨a, ha, hai⟩)
    by_cases hpi : p.1.id = i
    · subst hpi
      rw [hnone]
      simp [List.find?]
    · have hb : (p.1.id == i) = false := by simpa using hpi
      rcases hfind : acc.find? (fun e => e.user.id == i) with _ | e <;>
        simp [hfind, List.find?, hb, hpi]

theorem lookupScore_groupById (pairs : List (User × Nat)) (i : UserId) :
    lookupScore (groupById pairs) i =
      if pairs.any (fun p => p.1.id == i) then some (sumScores pairs i) else none := by
  suffices h : ∀ (l : List (User × Nat)) (acc : List Scored),
      lookupScore (l.foldl insertScored acc) i =
        match lookupScore acc i with
        | some n => some (n + sumScores l i)
        | none => if l.any (fun p => p.1.id == i) then some (sumScores l i) else none by
    have h0 : lookupScore ([] : List Scored) i = none := by simp [lookupScore]
    rw [groupById, h pairs [], h0]
  intro l
  induction l with
  | nil =>
    intro acc
    rcases h : lookupScore acc i with _ | n <;> simp [h, sumScores]
  | cons p l ih =>
    intro acc
    rw [List.foldl_cons, ih (insertScored acc p), lookupScore_insertScored]
    by_cases hpi : p.1.id = i
    · have hsum : sumScores (p :: l) i = p.2 + sumScores l i := by
        simp [sumScores, List.filter_cons, hpi]
      rw [if_pos hpi]
      rcases h : lookupScore acc i with _ | n
      · simp [h, hsum, List.any_cons, hpi, Nat.add_comm]
      · simp [h, hsum]
        omega
    · have hsum : sumScores (p :: l) i = sumScores l i := by
        have : (p.1.id == i) = false := by simpa using hpi
        simp [sumScores, List.filter_cons, this]
      have hane : ((p :: l).any (fun q => q.1.id == i)) = (l.any (fun q => q.1.id == i)) := by
        have : (p.1.id == i) = false := by simpa using hpi
        simp [List.any_cons, this]
      rw [if_neg hpi, hsum]
      have hb : (p.1.id == i) = false := by simpa using hpi
      rcases h : lookupScore acc i with _ | n
      · simp only [h]
        rw [List.any_cons, hb, Bool.false_or]
      · simp only [h]

theorem filter_id_eq_single (l : List User) (u : User)
    (h : (l.map User.id).Nodup) (hu : u ∈ l) :
    l.filter (fun v => v.id == u.id) = [u] := by
  induction l with
  | nil => exact absurd hu (List.not_mem_nil u)
  | cons v vs ih =>
    simp only [List.map_cons, List.nodup_cons] at h
    rcases List.mem_cons.mp hu with rfl | hmem
    · have hnil : vs.filter (fun w => w.id == u.id) = [] := by
        rw [List.filter_eq_nil_iff]
        intro w hw hwi
        exact h.1 (List.mem_map.mpr ⟨w, hw, by simpa using hwi.symm⟩)
      simp [List.filter_cons, hnil]
    · have hne : (v.id == u.id) = false := by
        simp only [beq_eq_false_iff_ne, ne_eq]
        intro hv
        exact h.1 (List.mem_map.mpr ⟨u, hmem, hv.symm⟩)
      simp only [List.filter_cons, hne, cond_false]
      exact ih h.2 hmem

theorem mem_updateUser {users : List User} {i : UserId} {f : User → User} {x : User}
    (hx : x ∈ updateUser users i f) : ∃ u ∈ users, x = if u.id == i then f u else u := by
  rcases List.mem_map.mp hx with ⟨u, hu, hg⟩
  exact ⟨u, hu, hg.symm⟩

theorem friendsSymm_updateUser_requests (users : List User) (i : UserId) (f : User → User)
    (hfr : ∀ u, (f u).friends = u.friends) (hid : ∀ u, (f u).id = u.id)
    (h : FriendsSymm users) : FriendsSymm (updateUser users i f) := by
  intro u' hu' v' hv' hmem
  rcases mem_updateUser hu' with ⟨u, hu, rfl⟩
  rcases mem_updateUser hv' with ⟨v, hv, rfl⟩
  have hufr : (if u.id == i then f u else u).friends = u.friends := by
    by_cases hc : u.id == i <;> simp [hc, hfr]
  have huid : (if u.id == i then f u else u).id = u.id := by
    by_cases hc : u.id == i <;> simp [hc, hid]
  have hvfr : (if v.id == i then f v else v).friends = v.friends := by
    by_cases hc : v.id == i <;> simp [hc, hfr]
  have hvid : (if v.id == i then f v else v).id = v.id := by
    by_cases hc : v.id == i <;> simp [hc, hid]
  rw [hufr, hvid] at hmem
  rw [hvfr, huid]
  exact h u hu v hv hmem

/-- The two sequential `updateOne` calls of `acceptRequest` as one map over
the collection. -/
def acceptComp (me t : UserId) (u : User) : User :=
  let w := if u.id == me then
    { u with friends := addToSet u.friends t, friendRequests := pull u.friendRequests t }
  else u
  if w.id == t then
    { w with friends := addToSet w.friends me, friendRequests := pull w.friendRequests me }
  else w

theorem acceptRequest_users_eq (users : List User) (me t : UserId)
    (hg : (users.find? (fun u => u.id == me && u.friendRequests.contains t)).isSome) :
    (acceptRequest users me t).users = users.map (acceptComp me t) := by
  unfold acceptRequest
  rw [if_pos hg]
  simp only [updateUser, List.map_map]
  rfl

theorem acceptComp_id (me t : UserId) (u : User) : (acceptComp me t u).id = u.id := by
  unfold acceptComp
  by_cases h1 : u.id == me <;> by_cases h2 : u.id == t <;> simp [h1, h2]

theorem mem_acceptComp_friends (me t : UserId) (u : User) (x : UserId) :
    x ∈ (acceptComp me t u).friends ↔
      x ∈ u.friends ∨ (u.id = me ∧ x = t) ∨ (u.id = t ∧ x = me) := by
  unfold acceptComp
  by_cases h1 : u.id = me
  · by_cases h3 : me = t
    · simp [h1, h3, mem_addToSet]
      try tauto
    · have h2 : ¬ u.id = t := fun h => h3 (h1.symm.trans h)
      simp [h1, h2, h3, mem_addToSet]
      try tauto
  · by_cases h2 : u.id = t
    · have h3 : ¬ t = me := fun h => h1 (h2.trans h)
      simp [h1, h2, h3, mem_addToSet]
      try tauto
    · simp [h1, h2]
      try tauto

theorem friendsSymm_acceptRequest (users : List User) (me t : UserId)
    (h : FriendsSymm users) : FriendsSymm (acceptRequest users me t).users := by
  by_cases hg : (users.find? (fun u => u.id == me && u.friendRequests.contains t)).isSome
  · rw [acceptRequest_users_eq users me t hg]
    intro u' hu' v' hv' hmem
    rcases List.mem_map.mp hu' with ⟨u, hu, rfl⟩
    rcases List.mem_map.mp hv' with ⟨v, hv, rfl⟩
    rw [acceptComp_id] at hmem ⊢
    rw [mem_acceptComp_friends] at hmem
    rw [mem_acceptComp_friends]
    rcases hmem with hm | ⟨hume, hvt⟩ | ⟨hut, hvme⟩
    · exact Or.inl (h u hu v hv hm)
    · exact Or.inr (Or.inr ⟨hvt, hume⟩)
    · exact Or.inr (Or.inl ⟨hvme, hut⟩)
  · unfold acceptRequest
    rw [if_neg hg]
    exact h

/-- The two sequential `updateOne` calls of `removeFriend` as one map over
the collection. -/
def removeComp (me t : UserId) (u : User) : User :=
  let w := if u.id == me then { u with friends := pull u.friends t } else u
  if w.id == t then { w with friends := pull w.friends me } else w

theorem removeFriend_users_eq (users : List User) (me t : UserId)
    (hg : (users.find? (fun u => u.id == t && u.friends.contains me)).isSome) :
    (removeFriend users me t).users = users.map (removeComp me t) := by
  unfold removeFriend
  rw [if_pos hg]
  simp only [updateUser, List.map_map]
  rfl

theorem removeComp_id (me t : UserId) (u : User) : (removeComp me t u).id = u.id := by
  unfold removeComp
  by_cases h1 : u.id == me <;> by_cases h2 : u.id == t <;> simp [h1, h2]

theorem mem_removeComp_friends (me t : UserId) (u : User) (x : UserId) :
    x ∈ (removeComp me t u).friends ↔
      x ∈ u.friends ∧ ¬(u.id = me ∧ x = t) ∧ ¬(u.id = t ∧ x = me) := by
  unfold removeComp
  by_cases h1 : u.id = me
  · by_cases h3 : me = t
    · simp [h1, h3, mem_pull]
      try tauto
    · have h2 : ¬ u.id = t := fun h => h3 (h1.symm.trans h)
      simp [h1, h2, h3, mem_pull]
      try tauto
  · by_cases h2 : u.id = t
    · have h3 : ¬ t = me := fun h => h1 (h2.trans h)
      simp [h1, h2, h3, mem_pull]
      try tauto
    · simp [h1, h2]
      try tauto

theorem friendsSymm_removeFriend (users : List User) (me t : UserId)
    (h : FriendsSymm users) : FriendsSymm (removeFriend users me t).users := by
  by_cases hg : (users.find? (fun u => u.id == t && u.friends.contains me)).isSome
  · rw [removeFriend_users_eq users me t hg]
    intro u' hu' v' hv' hmem
    rcases List.mem_map.mp hu' with ⟨u, hu, rfl⟩
    rcases List.mem_map.mp hv' with ⟨v, hv, rfl⟩
    rw [removeComp_id] at hmem ⊢
    rw [mem_removeComp_friends] at hmem
    rw [mem_removeComp_friends]
    rcases hmem with ⟨hm, hn1, hn2⟩
    exact ⟨h u hu v hv hm, fun ⟨hvme, hut⟩ => hn2 ⟨hut, hvme⟩, fun ⟨hvt, hume⟩ => hn1 ⟨hume, hvt⟩⟩
  · unfold removeFriend
    rw [if_neg hg]
    exact h

theorem friendsSymm_sendRequest (users : List User) (me t : UserId)
    (h : FriendsSymm users) : FriendsSymm (sendRequest users me t).users := by
  unfold sendRequest
  by_cases hg : ((users.find? (fun u =>
      u.id == t && (u.friendRequests.contains me || u.friends.contains me))).isSome
        || (findUser users t).isNone)
  · rw [if_pos hg]
    exact h
  · rw [if_neg hg]
    exact friendsSymm_updateUser_requests users t _ (fun u => rfl) (fun u => rfl) h

theorem friendsSymm_removeFriendRequest (users : List User) (me t : UserId)
    (h : FriendsSymm users) : FriendsSymm (removeFriendRequest users me t).users := by
  unfold removeFriendRequest
  by_cases hg : (users.find? (fun u => u.id == t && u.friendRequests.contains me)).isSome
  · rw [if_pos hg]
    exact friendsSymm_updateUser_requests users t _ (fun u => rfl) (fun u => rfl) h
  · rw [if_neg hg]
    exact h

theorem friendsSymm_rejectFriendRequest (users : List User) (me t : UserId)
    (h : FriendsSymm users) : FriendsSymm (rejectFriendRequest users me t).users := by
  unfold rejectFriendRequest
  by_cases hg : (users.find? (fun u => u.id == me && u.friendRequests.contains t)).isSome
  · rw [if_pos hg]
    exact friendsSymm_updateUser_requests users me _ (fun u => rfl) (fun u => rfl) h
  · rw [if_neg hg]
    exact h

theorem mem_scoredPairs (st : Store) (currentUserId : UserId) (friends : List UserId)
    (p : User × Nat) (hp : p ∈ scoredPairs st currentUserId friends) :
    p.1 ∈ st.users ∧ eligible currentUserId friends p.1 = true := by
  unfold scoredPairs at hp
  rcases List.mem_append.mp hp with hp1 | hp2
  · rcases List.mem_append.mp hp1 with hm | hl
    · rcases List.mem_map.mp hm with ⟨u, hu, rfl⟩
      rcases List.mem_filter.mp hu with ⟨hmem, hcond⟩
      rw [Bool.and_eq_true] at hcond
      exact ⟨hmem, hcond.2⟩
    · rcases List.mem_map.mp hl with ⟨u, hu, rfl⟩
      rcases List.mem_filter.mp hu with ⟨hmem, hcond⟩
      rw [Bool.and_eq_true] at hcond
      exact ⟨hmem, hcond.2⟩
  · rcases List.mem_map.mp hp2 with ⟨u, hu, rfl⟩
    rcases List.mem_filter.mp hu with ⟨hmem, hcond⟩
    rw [Bool.and_eq_true] at hcond
    exact ⟨hmem, hcond.2⟩

theorem scoredPage_source (st : Store) (currentUserId : UserId) (friends : List UserId)
    (limit page : Nat) (e : ScoredEntry)
    (he : e ∈ scoredPage st currentUserId friends limit page) :
    ∃ u ∈ st.users, u.id = e.id ∧ u.id = e.user.id ∧ eligible currentUserId friends u = true := by
  unfold scoredPage at he
  have hsorted : e ∈ sortDescBy (fun e => e.score)
      ((groupedCandidates st currentUserId friends).map toScoredEntry) :=
    ((List.take_sublist _ _).trans (List.drop_sublist _ _)).subset he
  have hmap : e ∈ (groupedCandidates st currentUserId friends).map toScoredEntry :=
    (mem_sortDescBy _ _ e).mp hsorted
  rcases List.mem_map.mp hmap with ⟨g, hg, rfl⟩
  rcases mem_groupById_user _ g hg with ⟨p, hp, hgp⟩
  rcases mem_scoredPairs st currentUserId friends p hp with ⟨hmem, helig⟩
  exact ⟨p.1, hmem, by simp [toScoredEntry, hgp], by simp [toScoredEntry, hgp], helig⟩

theorem fallbackPool_source (st : Store) (currentUserId : UserId) (f : FallbackEntry)
    (hf : f ∈ fallbackPool st currentUserId) :
    ∃ u ∈ st.users, f = toFallbackEntry u ∧ u.id ≠ currentUserId ∧
      currentUserId ∉ u.friendRequests := by
  unfold fallbackPool at hf
  have hmap := (mem_sortDescBy _ _ f).mp hf
  rcases List.mem_map.mp hmap with ⟨u, hu, rfl⟩
  rcases List.mem_filter.mp hu with ⟨hmem, hcond⟩
  rw [Bool.and_eq_true] at hcond
  rcases hcond with ⟨h1, h2⟩
  refine ⟨u, hmem, rfl, ?_, ?_⟩
  · simpa using h1
  · simpa using h2

/-! ## Claim theorems -/

/-- C10 (counterexample): invoking the suggestion endpoint with a requester
id that references no user yields the generic 500 InternalError response,
not a NotFound (404) response as the claim states: the non-null assertion on
the requester lookup throws and is caught by the catch-all handler. -/
theorem C10_counterexample :
    (getSuggestUsers { users := [], posts := [], comments := [] } 0 10 1).status = 500 ∧
      (getSuggestUsers { users := [], posts := [], comments := [] } 0 10 1).status ≠ 404 ∧
      (getSuggestUsers { users := [], posts := [], comments := [] } 0 10 1).isError = true := by
  decide

/-- C10 (amended): when the requester id references no user, `suggest`
fails with the InternalError (500) response — the same generic failure as a
store error — rather than NotFound. -/
theorem C10_amended (st : Store) (currentUserId limit page : Nat)
    (h : findUser st.users currentUserId = none) :
    getSuggestUsers st currentUserId limit page =
      { status := 500, message := "Internal server error", isError := true, entries := [] } := by
  unfold getSuggestUsers
  rw [h]

/-- C10 witness: the amended theorem applied to the empty store. -/
theorem C10_witness :
    getSuggestUsers { users := [], posts := [], comments := [] } 7 3 2 =
      { status := 500, message := "Internal server error", isError := true, entries := [] } :=
  C10_amended { users := [], posts := [], comments := [] } 7 3 2 (by decide)

/-- C2 (evaluation at the failing input): the claim says every suggestion
entry is the public summary without the password field; in fact a scored
candidate entry carries the candidate's stored password (the `$project`
removes only `user.friends` and `user.friendRequests`, and aggregation
results bypass the `toJSON` transform), and in a backfilled page the scored
entry also lacks the `friendsCount` field the summary requires. -/
theorem C2_password_leak :
    ((getSuggestUsers exC2 0 1 1).entries.map RespEntry.passwordField = [some "hunter2"]) ∧
      ((getSuggestUsers exC2 0 2 1).entries.map RespEntry.hasFriendsCount = [false, true]) := by
  decide

/-- C4 (evaluation): the co-commenter facet is empty for every store and
requester — its `$match` requires a comment authored by the candidate to
have author equal to the requester while the exclusion filter requires the
candidate to differ from the requester — although at the failing input
requester 0 commented on the post authored by the eligible user 1, who per
the claim should appear with weight 3. -/
theorem C4_group_always_empty :
    (∀ (st : Store) (currentUserId : UserId) (friends : List UserId),
        commentedPostsGroup st currentUserId friends = []) ∧
      exC4.comments = [{ id := 0, author := 0, post := 0 }] ∧
      exC4.posts = [{ id := 0, author := 1, likes := [] }] ∧
      commentedPostsGroup exC4 0 [] = [] :=
  ⟨fun st c f => commentedPostsGroup_nil st c f, by decide, by decide, by decide⟩

/-- C3 (counterexample): at `exC3` user 1 liked the post authored by
requester 0 and is eligible, yet the co-liker facet is empty — the facet
keys on posts authored by the candidate that the requester liked, not on
posts of the requester that the candidate liked. -/
theorem C3_counterexample :
    (∃ p ∈ exC3.posts, p.author = 0 ∧ 1 ∈ p.likes) ∧
      (∃ u ∈ exC3.users, u.id = 1 ∧ eligible 0 [] u = true) ∧
      likedPostsGroup exC3 0 [] = [] := by
  decide

/-- C3 (amended): the weight-5 facet consists exactly of the eligible users
who authored a post that the requester liked (the converse of the claimed
direction), and each such user enters the scored candidate pairs with
weight 5. -/
theorem C3_amended (st : Store) (currentUserId : UserId) (friends : List UserId) (u : User) :
    (u ∈ likedPostsGroup st currentUserId friends ↔
      u ∈ st.users ∧ (∃ p ∈ st.posts, p.author = u.id ∧ currentUserId ∈ p.likes) ∧
        u.id ≠ currentUserId ∧ u.id ∉ friends ∧ currentUserId ∉ u.friendRequests) ∧
    (u ∈ likedPostsGroup st currentUserId friends →
      (u, 5) ∈ scoredPairs st currentUserId friends) := by
  constructor
  · exact mem_likedPostsGroup st currentUserId friends u
  · intro hu
    unfold scoredPairs
    exact List.mem_append.mpr (Or.inl (List.mem_append.mpr (Or.inr
      (List.mem_map.mpr ⟨u, hu, rfl⟩))))

theorem getSuggestUsers_entries (st : Store) (currentUserId limit page : Nat) (me : User)
    (hme : findUser st.users currentUserId = some me) :
    (getSuggestUsers st currentUserId limit page).entries =
      if (scoredPage st currentUserId me.friends limit page).length < limit then
        (scoredPage st currentUserId me.friends limit page).map
            (fun e => RespEntry.scoredUser e.user)
          ++ (((fallbackPool st currentUserId).drop
                ((page - 1) * limit - (scoredPage st currentUserId me.friends limit page).length)).take
                (limit - (scoredPage st currentUserId me.friends limit page).length)).map
              RespEntry.fallback
      else (scoredPage st currentUserId me.friends limit page).map RespEntry.scoredFull := by
  simp only [getSuggestUsers, hme]
  by_cases hlen : (scoredPage st currentUserId me.friends limit page).length < limit
  · rw [if_pos hlen, if_pos hlen]
  · rw [if_neg hlen, if_neg hlen]

theorem scoredPage_length_le (st : Store) (currentUserId : UserId) (friends : List UserId)
    (limit page : Nat) : (scoredPage st currentUserId friends limit page).length ≤ limit := by
  unfold scoredPage
  exact List.length_take_le _ _

/-- C7 (counterexample): the route validator accepts `limit = 21` (it only
enforces a lower bound of 1; the clamp to 20 claimed by the specification
does not exist), and with 21 eligible users the response holds 21 entries,
more than the claimed maximum of 20. -/
theorem C7_counterexample :
    validLimit 21 = true ∧ (getSuggestUsers exC7 0 21 1).entries.length = 21 := by
  constructor
  · decide
  · decide

/-- C7 (amended): the validator only requires `limit ≥ 1` — in particular
it accepts 21, so no clamp to 20 exists — but the response length never
exceeds the requested limit: the scored page is `$limit`-bounded and the
backfill takes at most the remaining slots. -/
theorem C7_amended :
    (∀ (st : Store) (currentUserId limit page : Nat),
        (getSuggestUsers st currentUserId limit page).entries.length ≤ limit) ∧
      validLimit 21 = true := by
  constructor
  · intro st currentUserId limit page
    rcases hme : findUser st.users currentUserId with _ | me
    · unfold getSuggestUsers
      rw [hme]
      simp
    · rw [getSuggestUsers_entries st currentUserId limit page me hme]
      by_cases hlen : (scoredPage st currentUserId me.friends limit page).length < limit
      · rw [if_pos hlen]
        have h2 := List.length_take_le
          (limit - (scoredPage st currentUserId me.friends limit page).length)
          ((fallbackPool st currentUserId).drop
            ((page - 1) * limit - (scoredPage st currentUserId me.friends limit page).length))
        simp only [List.length_append, List.length_map]
        omega
      · rw [if_neg hlen]
        simp only [List.length_map]
        exact scoredPage_length_le st currentUserId me.friends limit page
  · decide

/-- C1 (counterexample): requester 0 is friends with user 1; with no scored
candidates the fallback pool backfills the page with user 1 — the
suggestion list contains a member of the requester's `friends`, violating
the claimed exclusion for fallback entries. -/
theorem C1_counterexample :
    ((getSuggestUsers exC1 0 1 1).entries.map RespEntry.uid = [1]) ∧
      ((findUser exC1.users 0).map User.friends = some [1]) := by
  decide

/-- C1 (amended): every entry of a suggestion response denotes a stored
user distinct from the requester and without a pending request from the
requester; entries coming from the scored aggregation additionally exclude
the requester's friends, but fallback entries are only filtered on the
first two conditions (a friend of the requester can be backfilled). -/
theorem C1_amended (st : Store) (currentUserId limit page : Nat) (me : User)
    (hme : findUser st.users currentUserId = some me) :
    ∀ e ∈ (getSuggestUsers st currentUserId limit page).entries,
      ∃ u ∈ st.users, u.id = e.uid ∧ u.id ≠ currentUserId ∧
        currentUserId ∉ u.friendRequests ∧
        (e.isScored = true → u.id ∉ me.friends) := by
  intro e he
  rw [getSuggestUsers_entries st currentUserId limit page me hme] at he
  by_cases hlen : (scoredPage st currentUserId me.friends limit page).length < limit
  · rw [if_pos hlen] at he
    rcases List.mem_append.mp he with hs | hf
    · rcases List.mem_map.mp hs with ⟨se, hse, rfl⟩
      rcases scoredPage_source st currentUserId me.friends limit page se hse with
        ⟨u, hu, hid1, hid2, helig⟩
      rcases (eligible_iff currentUserId me.friends u).mp helig with ⟨hne, hnf, hnr⟩
      exact ⟨u, hu, hid2, hne, hnr, fun _ => hnf⟩
    · rcases List.mem_map.mp hf with ⟨fe, hfe, rfl⟩
      have hpool : fe ∈ fallbackPool st currentUserId :=
        ((List.take_sublist _ _).trans (List.drop_sublist _ _)).subset hfe
      rcases fallbackPool_source st currentUserId fe hpool with ⟨u, hu, rfl, hne, hnr⟩
      exact ⟨u, hu, rfl, hne, hnr, fun hsc => by simp [RespEntry.isScored] at hsc⟩
  · rw [if_neg hlen] at he
    rcases List.mem_map.mp he with ⟨se, hse, rfl⟩
    rcases scoredPage_source st currentUserId me.friends limit page se hse with
      ⟨u, hu, hid1, hid2, helig⟩
    rcases (eligible_iff currentUserId me.friends u).mp helig with ⟨hne, hnf, hnr⟩
    exact ⟨u, hu, hid1, hne, hnr, fun _ => hnf⟩

/-- C1 witness: the amended exclusion theorem applied to the concrete store
`exC1` with requester 0 and the backfilled fallback entry for user 1. -/
theorem C1_witness :
    ∃ u ∈ exC1.users,
      u.id = (RespEntry.fallback (toFallbackEntry (mkU 1 [0] []))).uid ∧ u.id ≠ 0 ∧
        0 ∉ u.friendRequests ∧
        ((RespEntry.fallback (toFallbackEntry (mkU 1 [0] []))).isScored = true →
          u.id ∉ (mkU 0 [1] []).friends) :=
  C1_amended exC1 0 1 1 (mkU 0 [1] []) (by decide)
    (RespEntry.fallback (toFallbackEntry (mkU 1 [0] []))) (by decide)

/-- C5 (counterexample): with requester 0, user 1 is the only scored
candidate and also tops the fallback pool, which is not filtered against
the scored results: the backfilled page lists user id 1 twice. -/
theorem C5_counterexample :
    ((getSuggestUsers exC5 0 2 1).entries.map RespEntry.uid = [1, 1]) ∧
      ¬ ((getSuggestUsers exC5 0 2 1).entries.map RespEntry.uid).Nodup := by
  decide

theorem sumScores_append (a b : List (User × Nat)) (i : UserId) :
    sumScores (a ++ b) i = sumScores a i + sumScores b i := by
  simp [sumScores, List.filter_append]

theorem sumScores_map_weight (l : List User) (w : Nat) (u : User)
    (hnd : (l.map User.id).Nodup) (hu : u ∈ l) :
    sumScores (l.map (fun v => (v, w))) u.id = w := by
  unfold sumScores
  rw [List.filter_map]
  have : ((fun p : User × Nat => p.1.id == u.id) ∘ fun v => (v, w))
      = fun v : User => v.id == u.id := rfl
  rw [this, filter_id_eq_single l u hnd hu]
  simp

/-- C5 (amended): the user ids of a scored suggestion page never repeat
(the `$group` stage deduplicates by id and sums the facet weights, so a
user who is both a mutual-friend and a co-liker candidate is listed once
with score 15), but the claim fails for backfilled pages: the fallback pool
is not filtered against the scored entries of the same page, so a
backfilled page can repeat a scored candidate. -/
theorem C5_amended (st : Store) (currentUserId limit page : Nat) (me : User)
    (hme : findUser st.users currentUserId = some me)
    (hnd : (st.users.map User.id).Nodup) :
    (((scoredPage st currentUserId me.friends limit page).map ScoredEntry.id).Nodup) ∧
    (∀ u, u ∈ mutualFriendsGroup st.users currentUserId me.friends →
      u ∈ likedPostsGroup st currentUserId me.friends →
      lookupScore (groupedCandidates st currentUserId me.friends) u.id = some 15) := by
  constructor
  · have h1 : (scoredIds (groupedCandidates st currentUserId me.friends)).Nodup :=
      scoredIds_groupById_nodup _
    have h2 : ((groupedCandidates st currentUserId me.friends).map toScoredEntry).map
        ScoredEntry.id = scoredIds (groupedCandidates st currentUserId me.friends) := by
      simp [scoredIds, List.map_map]
      exact fun a _ => rfl
    have h3 : List.Perm
        ((sortDescBy (fun e => e.score)
          ((groupedCandidates st currentUserId me.friends).map toScoredEntry)).map ScoredEntry.id)
        (((groupedCandidates st currentUserId me.friends).map toScoredEntry).map ScoredEntry.id) :=
      (sortDescBy_perm _ _).map _
    have h4 : ((sortDescBy (fun e => e.score)
        ((groupedCandidates st currentUserId me.friends).map toScoredEntry)).map
          ScoredEntry.id).Nodup :=
      h3.nodup_iff.mpr (h2 ▸ h1)
    have h5 : ((scoredPage st currentUserId me.friends limit page).map ScoredEntry.id).Sublist
        ((sortDescBy (fun e => e.score)
          ((groupedCandidates st currentUserId me.friends).map toScoredEntry)).map
            ScoredEntry.id) := by
      unfold scoredPage
      exact ((List.take_sublist _ _).trans (List.drop_sublist _ _)).map _
    exact h4.sublist h5
  · intro u hm hl
    have hpair : (u, 10) ∈ scoredPairs st currentUserId me.friends := by
      unfold scoredPairs
      exact List.mem_append.mpr (Or.inl (List.mem_append.mpr (Or.inl
        (List.mem_map.mpr ⟨u, hm, rfl⟩))))
    have hany : (scoredPairs st currentUserId me.friends).any
        (fun p => p.1.id == u.id) = true :=
      List.any_eq_true.mpr ⟨(u, 10), hpair, by simp⟩
    rw [groupedCandidates, lookupScore_groupById, if_pos hany]
    have hndm : ((mutualFriendsGroup st.users currentUserId me.friends).map User.id).Nodup :=
      hnd.sublist ((List.filter_sublist _).map _)
    have hndl : ((likedPostsGroup st currentUserId me.friends).map User.id).Nodup :=
      hnd.sublist ((List.filter_sublist _).map _)
    have hs : sumScores (scoredPairs st currentUserId me.friends) u.id = 15 := by
      unfold scoredPairs
      rw [sumScores_append, sumScores_append, sumScores_map_weight _ _ _ hndm hm,
        sumScores_map_weight _ _ _ hndl hl, commentedPostsGroup_nil]
      simp [sumScores]
    rw [hs]

/-- C5 witness: the amended theorem applied to `exC5W`, where user 1 is
both a mutual-friend and a co-liker candidate for requester 0 and is
grouped once with score 15. -/
theorem C5_witness :
    (((scoredPage exC5W 0 (mkU 0 [2] []).friends 2 1).map ScoredEntry.id).Nodup) ∧
    lookupScore (groupedCandidates exC5W 0 (mkU 0 [2] []).friends) (mkU 1 [2] []).id = some 15 :=
  ⟨(C5_amended exC5W 0 2 1 (mkU 0 [2] []) (by decide) (by decide)).1,
    (C5_amended exC5W 0 2 1 (mkU 0 [2] []) (by decide) (by decide)).2
      (mkU 1 [2] []) (by decide) (by decide)⟩

/-- C6 (counterexample): concatenating pages 1 and 2 with limit 2 for
requester 0 yields user 4, which a single request with limit 4 never
returns — the fallback `$skip` subtracts only the scored entries of the
current page, so after the scored set is exhausted it over-skips the pool
(and the single large page additionally repeats the scored candidate). -/
theorem C6_counterexample :
    4 ∈ ((suggestPages exC6 0 2 2).map RespEntry.uid) ∧
      4 ∉ (((getSuggestUsers exC6 0 4 1).entries).map RespEntry.uid) := by
  decide

/-- C6 (amended): the backfill offset actually used is
`max(0, (page-1)*limit - scoredEntriesOnThisPage)`, which continues the
fallback pool seamlessly only when no scored candidates exist at all: in
that case concatenating pages `1..k` with a positive limit equals the
single request with limit `k*limit`. -/
theorem C6_amended (st : Store) (currentUserId limit k : Nat) (me : User)
    (hme : findUser st.users currentUserId = some me)
    (hm : mutualFriendsGroup st.users currentUserId me.friends = [])
    (hl : likedPostsGroup st currentUserId me.friends = [])
    (hL : 1 ≤ limit) :
    suggestPages st currentUserId limit k =
      (getSuggestUsers st currentUserId (limit * k) 1).entries := by
  have hpairs : scoredPairs st currentUserId me.friends = [] := by
    unfold scoredPairs
    rw [hm, hl, commentedPostsGroup_nil]
    rfl
  have hpage : ∀ L p, scoredPage st currentUserId me.friends L p = [] := by
    intro L p
    unfold scoredPage groupedCandidates
    rw [hpairs]
    simp [groupById, sortDescBy]
  have hent : ∀ L p, 1 ≤ L →
      (getSuggestUsers st currentUserId L p).entries =
        (((fallbackPool st currentUserId).drop ((p - 1) * L)).take L).map RespEntry.fallback := by
    intro L p hL1
    rw [getSuggestUsers_entries st currentUserId L p me hme, hpage]
    rw [if_pos (by simpa using hL1)]
    simp
  have haux : ∀ n, suggestPages st currentUserId limit n =
      ((fallbackPool st currentUserId).take (limit * n)).map RespEntry.fallback := by
    intro n
    induction n with
    | zero => simp [suggestPages]
    | succ n ih =>
      have hstep : suggestPages st currentUserId limit (n + 1) =
          suggestPages st currentUserId limit n
            ++ (getSuggestUsers st currentUserId limit (n + 1)).entries := by
        simp [suggestPages, List.range_succ]
      rw [hstep, ih, hent limit (n + 1) hL]
      have hsub : (n + 1 - 1) * limit = limit * n := by
        simp [Nat.mul_comm]
      rw [hsub, Nat.mul_succ, List.take_add, List.map_append]
  rcases Nat.eq_zero_or_pos k with rfl | hk
  · rw [haux 0]
    rw [getSuggestUsers_entries st currentUserId (limit * 0) 1 me hme, hpage]
    simp
  · rw [haux k, hent (limit * k) 1 (Nat.mul_pos hL hk)]
    simp

/-- C6 witness: the amended pagination theorem applied to `exC6W`, where no
scored candidates exist: pages 1..2 with limit 1 equal one limit-2 page. -/
theorem C6_witness :
    suggestPages exC6W 0 1 2 = (getSuggestUsers exC6W 0 (1 * 2) 1).entries :=
  C6_amended exC6W 0 1 2 (mkU 0 [] []) (by decide) (by decide) (by decide) (by decide)

theorem mem_acceptComp_requests (me t : UserId) (u : User) (x : UserId) :
    x ∈ (acceptComp me t u).friendRequests ↔
      x ∈ u.friendRequests ∧ ¬(u.id = me ∧ x = t) ∧ ¬(u.id = t ∧ x = me) := by
  unfold acceptComp
  by_cases h1 : u.id = me
  · by_cases h3 : me = t
    · simp [h1, h3, mem_pull]
      try tauto
    · have h2 : ¬ u.id = t := fun h => h3 (h1.symm.trans h)
      simp [h1, h2, h3, mem_pull]
      try tauto
  · by_cases h2 : u.id = t
    · have h3 : ¬ t = me := fun h => h1 (h2.trans h)
      simp [h1, h2, h3, mem_pull]
      try tauto
    · simp [h1, h2]
      try tauto

/-- C8: after a successful `acceptRequest` by B of the pending request from
A, some stored documents for A and B have each other in `friends` and
neither has the other in `friendRequests`; moreover every friend-relation
mutating operation, run sequentially, preserves symmetry of the `friends`
relation over the collection. -/
theorem C8_accept_symmetric :
    (∀ (users : List User) (a b : User) (A B : UserId),
        a ∈ users → b ∈ users → a.id = A → b.id = B → A ≠ B → A ∈ b.friendRequests →
          (acceptRequest users B A).status = 200 ∧
          ∃ a2 b2, a2 ∈ (acceptRequest users B A).users ∧ b2 ∈ (acceptRequest users B A).users ∧
            a2.id = A ∧ b2.id = B ∧ A ∈ b2.friends ∧ B ∈ a2.friends ∧
            A ∉ b2.friendRequests ∧ B ∉ a2.friendRequests) ∧
    (∀ (users : List User) (me t : UserId), FriendsSymm users →
        FriendsSymm (sendRequest users me t).users ∧
        FriendsSymm (acceptRequest users me t).users ∧
        FriendsSymm (rejectFriendRequest users me t).users ∧
        FriendsSymm (removeFriendRequest users me t).users ∧
        FriendsSymm (removeFriend users me t).users) := by
  constructor
  · intro users a b A B ha hb haid hbid hAB hreq
    have hg : (users.find? (fun u => u.id == B && u.friendRequests.contains A)).isSome :=
      List.find?_isSome.mpr ⟨b, hb, by simp [hbid, List.elem_iff, hreq]⟩
    refine ⟨?_, acceptComp B A a, acceptComp B A b, ?_, ?_, ?_, ?_, ?_, ?_, ?_, ?_⟩
    · unfold acceptRequest
      rw [if_pos hg]
    · rw [acceptRequest_users_eq users B A hg]
      exact List.mem_map_of_mem _ ha
    · rw [acceptRequest_users_eq users B A hg]
      exact List.mem_map_of_mem _ hb
    · rw [acceptComp_id]
      exact haid
    · rw [acceptComp_id]
      exact hbid
    · exact (mem_acceptComp_friends B A b A).mpr (Or.inr (Or.inl ⟨hbid, rfl⟩))
    · exact (mem_acceptComp_friends B A a B).mpr (Or.inr (Or.inr ⟨haid, rfl⟩))
    · intro hmem
      rcases (mem_acceptComp_requests B A b A).mp hmem with ⟨_, hn1, _⟩
      exact hn1 ⟨hbid, rfl⟩
    · intro hmem
      rcases (mem_acceptComp_requests B A a B).mp hmem with ⟨_, _, hn2⟩
      exact hn2 ⟨haid, rfl⟩
  · intro users me t h
    exact ⟨friendsSymm_sendRequest users me t h, friendsSymm_acceptRequest users me t h,
      friendsSymm_rejectFriendRequest users me t h, friendsSymm_removeFriendRequest users me t h,
      friendsSymm_removeFriend users me t h⟩

/-- C8 witness: the theorem applied to the two-user store `exC8U`, where
user 2 holds a pending request from user 1 and accepts it. -/
theorem C8_witness :
    ((acceptRequest exC8U 2 1).status = 200 ∧
      ∃ a2 b2, a2 ∈ (acceptRequest exC8U 2 1).users ∧ b2 ∈ (acceptRequest exC8U 2 1).users ∧
        a2.id = 1 ∧ b2.id = 2 ∧ 1 ∈ b2.friends ∧ 2 ∈ a2.friends ∧
        1 ∉ b2.friendRequests ∧ 2 ∉ a2.friendRequests) ∧
    FriendsSymm (acceptRequest exC8U 1 2).users :=
  ⟨C8_accept_symmetric.1 exC8U (mkU 1 [] []) (mkU 2 [] [1]) 1 2
      (by decide) (by decide) (by decide) (by decide) (by decide) (by decide),
    (C8_accept_symmetric.2 exC8U 1 2
      (by intro u hu v hv hm; fin_cases hu <;> simp [exC8U, mkU] at hm)).2.1⟩

/-- C9: each invalid friend-request transition — duplicate or
already-friends send, accept or reject with no pending request, cancel
with no pending request, removing a non-friend — returns a client-error
response (403 for send, 400 otherwise) and leaves the users collection
exactly as it was. -/
theorem C9_invalid_transitions (users : List User) (me t : UserId) :
    ((∃ u ∈ users, u.id = t ∧ (me ∈ u.friendRequests ∨ me ∈ u.friends)) →
        sendRequest users me t = { users := users, status := 403, isError := true }) ∧
    ((¬ ∃ u ∈ users, u.id = me ∧ t ∈ u.friendRequests) →
        acceptRequest users me t = { users := users, status := 400, isError := true }) ∧
    ((¬ ∃ u ∈ users, u.id = me ∧ t ∈ u.friendRequests) →
        rejectFriendRequest users me t = { users := users, status := 400, isError := true }) ∧
    ((¬ ∃ u ∈ users, u.id = t ∧ me ∈ u.friendRequests) →
        removeFriendRequest users me t = { users := users, status := 400, isError := true }) ∧
    ((¬ ∃ u ∈ users, u.id = t ∧ me ∈ u.friends) →
        removeFriend users me t = { users := users, status := 400, isError := true }) := by
  refine ⟨?_, ?_, ?_, ?_, ?_⟩
  · rintro ⟨u, hu, hut, hor⟩
    have hsome : (users.find? (fun u =>
        u.id == t && (u.friendRequests.contains me || u.friends.contains me))).isSome :=
      List.find?_isSome.mpr ⟨u, hu, by
        rcases hor with h | h <;> simp [hut, List.elem_iff, h]⟩
    unfold sendRequest
    rw [if_pos (by rw [Bool.or_eq_true]; exact Or.inl hsome)]
  · intro hn
    have hnone : users.find? (fun u => u.id == me && u.friendRequests.contains t) = none := by
      rw [List.find?_eq_none]
      intro u hu hp
      rw [Bool.and_eq_true] at hp
      exact hn ⟨u, hu, by simpa using hp.1, by simpa [List.elem_iff] using hp.2⟩
    unfold acceptRequest
    rw [if_neg (by rw [hnone]; simp)]
  · intro hn
    have hnone : users.find? (fun u => u.id == me && u.friendRequests.contains t) = none := by
      rw [List.find?_eq_none]
      intro u hu hp
      rw [Bool.and_eq_true] at hp
      exact hn ⟨u, hu, by simpa using hp.1, by simpa [List.elem_iff] using hp.2⟩
    unfold rejectFriendRequest
    rw [if_neg (by rw [hnone]; simp)]
  · intro hn
    have hnone : users.find? (fun u => u.id == t && u.friendRequests.contains me) = none := by
      rw [List.find?_eq_none]
      intro u hu hp
      rw [Bool.and_eq_true] at hp
      exact hn ⟨u, hu, by simpa using hp.1, by simpa [List.elem_iff] using hp.2⟩
    unfold removeFriendRequest
    rw [if_neg (by rw [hnone]; simp)]
  · intro hn
    have hnone : users.find? (fun u => u.id == t && u.friends.contains me) = none := by
      rw [List.find?_eq_none]
      intro u hu hp
      rw [Bool.and_eq_true] at hp
      exact hn ⟨u, hu, by simpa using hp.1, by simpa [List.elem_iff] using hp.2⟩
    unfold removeFriend
    rw [if_neg (by rw [hnone]; simp)]

/-- C9 witness: the invalid transitions exercised on concrete stores —
sending to a user who is already a friend (`exC9A`), and accepting,
rejecting, cancelling or unfriending with no relation present (`exC9B`). -/
theorem C9_witness :
    sendRequest exC9A 1 2 = { users := exC9A, status := 403, isError := true } ∧
    acceptRequest exC9B 1 2 = { users := exC9B, status := 400, isError := true } ∧
    rejectFriendRequest exC9B 1 2 = { users := exC9B, status := 400, isError := true } ∧
    removeFriendRequest exC9B 1 2 = { users := exC9B, status := 400, isError := true } ∧
    removeFriend exC9B 1 2 = { users := exC9B, status := 400, isError := true } :=
  ⟨(C9_invalid_transitions exC9A 1 2).1 ⟨mkU 2 [1] [], by decide, by decide, Or.inr (by decide)⟩,
    (C9_invalid_transitions exC9B 1 2).2.1 (by decide),
    (C9_invalid_transitions exC9B 1 2).2.2.1 (by decide),
    (C9_invalid_transitions exC9B 1 2).2.2.2.1 (by decide),
    (C9_invalid_transitions exC9B 1 2).2.2.2.2 (by decide)⟩

/-- C3 witness: the amended co-liker characterization applied at `exC5W`,
whose post authored by user 1 was liked by requester 0. -/
theorem C3_witness :
    (mkU 1 [2] [], 5) ∈ scoredPairs exC5W 0 [2] :=
  (C3_amended exC5W 0 [2] (mkU 1 [2] [])).2 (by decide)
